import Mathlib

/-!
Shallow embedding of the credential-resolution core of the `music-tracker`
repository (files `src/spotify_api.rs`, `src/local_store.rs`, `src/pkce.rs`),
together with theorems settling the frozen claims about it.

Modelling conventions:
* Rust `i64`/`u64` become `Int`/`Nat`; where the code performs wrapping
  unsigned arithmetic we take the result `% 2^64` explicitly.
* `SystemTime` values are modelled as seconds since the epoch (`Nat`);
  `SystemTime::elapsed()` — which depends on the wall clock and can fail on
  clock skew — is modelled as an `Option Nat` input (`none` = `Err(_)`,
  `some e` = `Ok(d)` with `d.as_secs() = e`).
* I/O collaborators (filesystem, Bitwarden secrets manager, HTTP transport,
  serde serialisation) are modelled as explicit environment values passed to
  the embedded functions; the functions additionally return the list of
  remote Secret Store calls they perform, so that "no remote call is made"
  can be stated.
-/

namespace MusicTracker

/-- The fixed scope string `SCOPE` from `src/spotify_api.rs`. -/
def SCOPE : String := "user-read-playback-state user-read-currently-playing playlist-read-private user-read-playback-position user-top-read user-read-recently-played user-library-read"

/-- `AppAuthData` from `src/spotify_api.rs`. -/
structure AppAuthData where
  client_id : String
  client_secret : Option String
deriving DecidableEq, Repr

/-- `UserAuthData` from `src/spotify_api.rs`.  `expires_in` is an `i64` in the
source, modelled as `Int`; `last_refresh : Option<SystemTime>` is modelled as
an optional timestamp in whole seconds. -/
structure UserAuthData where
  access_token : String
  token_type : String
  scope : String
  expires_in : Int
  refresh_token : String
  last_refresh : Option Nat
deriving DecidableEq, Repr

/-- `RefreshNote` from `src/local_store.rs`. -/
structure RefreshNote where
  expires_in : Int
  last_refresh : Option Nat
deriving DecidableEq, Repr

/-- `RefreshNote::default()`: `i64` defaults to `0`, `Option` to `None`. -/
def RefreshNote.default : RefreshNote := ⟨0, none⟩

/-- The modulus 2^64 of Rust `u64` arithmetic. -/
def U64MOD : Nat := 18446744073709551616

/-- The value of a Rust `as u64` cast applied to an `i64` (two's-complement
reinterpretation, i.e. reduction modulo 2^64). -/
def i64AsU64 (x : Int) : Nat := (x % (18446744073709551616 : Int)).toNat

/-- The freshness check performed at `src/spotify_api.rs` lines 85–98 (inside
`refresh_access_token`), which `src/local_store.rs` invokes as the method
`UserAuthData::token_needs_refresh` (declared on the struct, logic identical
to the inline check, which is the in-tree authority).  Returns `false`
(fresh, no refresh needed) exactly when `last_refresh` is present, the
elapsed computation succeeded, and
`elapsed.as_secs() < auth.expires_in as u64 - 5` — the subtraction being
wrapping `u64` arithmetic.  `elapsed` is the outcome of
`last_refresh.elapsed()` (`none` = `Err`). -/
def token_needs_refresh (auth : UserAuthData) (elapsed : Option Nat) : Bool :=
  match auth.last_refresh with
  | none => true
  | some _ =>
    match elapsed with
    | some e => if e < (i64AsU64 auth.expires_in + U64MOD - 5) % U64MOD then false else true
    | none => true

/-- Cause of a failed `load_json_data` call (`src/local_store.rs` lines
337–348).  The source returns `anyhow::Result`, but the three failure causes
carry distinguishable underlying error values — an `io::Error` of kind
`NotFound` when `fs::read_to_string` hits a missing file (`absent`), a
`serde_json::Error` when the file reads but does not parse (`corrupt`), and
either the explicit `bail!` after a failed `fs::exists` check or an
`io::Error` of another kind for other access failures (`ioFailure`) — so the
error is modelled as this inductive. -/
inductive LoadErr where
  | absent
  | corrupt
  | ioFailure
deriving DecidableEq, Repr

/-- State of a local JSON file as the filesystem presents it to
`load_json_data`: missing, readable with some content, failing the
`fs::exists` check, or failing `fs::read_to_string` with a non-`NotFound`
I/O error. -/
inductive FileState where
  | missing
  | present (content : String)
  | existsCheckFails
  | readFails
deriving DecidableEq, Repr

/-- `load_json_data` from `src/local_store.rs` lines 337–348, parameterised
by the serde deserialiser `parse` for the target type `D` (`none` = parse
error).  The code first runs `fs::exists` and bails if that check itself
errs; a missing file passes the check (`Ok(false)`) and then fails
`read_to_string` with a `NotFound` I/O error; a present file that fails to
parse yields a serde error. -/
def load_json_data {D : Type} (parse : String → Option D) : FileState → Except LoadErr D
  | .existsCheckFails => .error .ioFailure
  | .missing => .error .absent
  | .readFails => .error .ioFailure
  | .present content =>
    match parse content with
    | none => .error .corrupt
    | some d => .ok d

/-- A remote Secret Store interaction performed by the resolver: fetching the
`spotify_refresh_token_<user_id>` secret or the
`spotify_access_token_<user_id>` secret (each `get_secret` call lists the
secrets and then gets one by id; both RPCs are covered by one event). -/
inductive RemoteCall where
  | getRefresh (user_id : String)
  | getAccess (user_id : String)
deriving DecidableEq, Repr

/-- Environment of one `load_user_auth_data_async` invocation
(`src/local_store.rs` lines 232–286): the state of the local
`user_auth.json` file, the serde deserialiser for `UserAuthData`, the
outcome of `last_refresh.elapsed()` for the freshness check on the locally
loaded bundle, the outcomes the Secret Store would give for the two
`get_secret` calls (`(value, note)` pairs, `Except` error = key not found or
store unreachable), and the serde deserialiser for `RefreshNote`. -/
structure ResolveEnv where
  userFile : FileState
  parseUser : String → Option UserAuthData
  elapsed : Option Nat
  refreshSecret : Except Unit (String × String)
  accessSecret : Except Unit (String × String)
  parseNote : String → Option RefreshNote

/-- The remote part of `load_user_auth_data_async` (`src/local_store.rs`
lines 242–286), entered when the local bundle is absent or expired:
fetch the refresh-token secret; on failure return the local bundle if any;
on success return the local bundle when its refresh token matches the
fetched value (`local_data.as_ref().is_some_and(|l| refresh_tok ==
l.refresh_token)`), and otherwise synthesize a bundle from the remote
data — access token from the best-effort access-token secret fetch (empty
string on failure), `expires_in`/`last_refresh` recovered from the
`RefreshNote` parsed out of the refresh-token secret's note
(`serde_json::from_str(&note).unwrap_or(RefreshNote::default())`). -/
def resolveRemote (env : ResolveEnv) (user_id : String)
    (local_data : Option UserAuthData) : Option UserAuthData × List RemoteCall :=
  match env.refreshSecret with
  | .error _ => (local_data, [.getRefresh user_id])
  | .ok (refresh_tok, note) =>
    if local_data.any (fun l => refresh_tok = l.refresh_token) then
      (local_data, [.getRefresh user_id])
    else
      let access_tok : String :=
        match env.accessSecret with
        | .error _ => ""
        | .ok (v, _) => v
      let refresh_note := (env.parseNote note).getD RefreshNote.default
      (some { access_token := access_tok
              token_type := "Bearer"
              scope := SCOPE
              expires_in := refresh_note.expires_in
              refresh_token := refresh_tok
              last_refresh := refresh_note.last_refresh },
       [.getRefresh user_id, .getAccess user_id])

/-- `CredStorage::load_user_auth_data_async` from `src/local_store.rs` lines
232–286, returning the resolved bundle together with the list of remote
Secret Store calls performed, in order.  Fast path: a locally loaded bundle
that does not need a refresh is returned with no remote call; otherwise the
remote reconciliation in `resolveRemote` runs with `local_data` holding the
local bundle when one loaded. -/
def load_user_auth_data_async (env : ResolveEnv) (user_id : String) :
    Option UserAuthData × List RemoteCall :=
  match load_json_data env.parseUser env.userFile with
  | .ok data =>
    if token_needs_refresh data env.elapsed = false then (some data, [])
    else resolveRemote env user_id (some data)
  | .error _ => resolveRemote env user_id none

/-- Outcome of the `POST /api/token` exchange in `refresh_access_token`:
the transport fails, or a response arrives whose body does not parse as a
`UserAuthData`, or a response arrives that parses to the given bundle. -/
inductive HttpOutcome where
  | transportErr
  | parseErr
  | parsed (auth : UserAuthData)
deriving DecidableEq, Repr

/-- In-memory credential state of `SpotifyClient` (`src/spotify_api.rs`). -/
structure SpotifyClientState where
  app_auth : Option AppAuthData
  user_auth : Option UserAuthData
deriving DecidableEq, Repr

/-- `SpotifyClient::update_user_auth` (`src/spotify_api.rs` lines 65–77),
given the outcome of `response.json::<UserAuthData>()` on the received
response (`none` = parse error), the current wall-clock time `now`
(seconds), and the client state.  On parse failure it returns `Err` and
changes nothing; on success it stamps `last_refresh = now`, stores the
bundle (`store_user_auth_data`, reported as the persisted-bundle
component), and installs it in memory. -/
def update_user_auth (st : SpotifyClientState) (body : Option UserAuthData) (now : Nat) :
    Except String Unit × SpotifyClientState × Option UserAuthData :=
  match body with
  | none =>
    (.error "Could not parse response json into a UserAuthData struct", st, none)
  | some auth =>
    let auth2 := { auth with last_refresh := some now }
    (.ok (), { st with user_auth := some auth2 }, some auth2)

/-- `SpotifyClient::refresh_access_token` (`src/spotify_api.rs` lines
81–123).  `elapsed` is the outcome of `last_refresh.elapsed()`, `http` the
outcome of the token-endpoint POST (only consulted when a refresh is
attempted), `now` the wall-clock time stamped on success.  Returns the
`Result`, the new client state, and the bundle persisted via
`store_user_auth_data` (if any).  Note that a parse failure inside
`update_user_auth` is only logged: the function still returns `Ok(())`. -/
def refresh_access_token (st : SpotifyClientState) (elapsed : Option Nat)
    (http : HttpOutcome) (now : Nat) :
    Except String Unit × SpotifyClientState × Option UserAuthData :=
  match st.app_auth with
  | none => (.error "Missing app_auth data", st, none)
  | some _ =>
    match st.user_auth with
    | none => (.error "Missing user_auth data", st, none)
    | some auth =>
      if token_needs_refresh auth elapsed = false then (.ok (), st, none)
      else
        match http with
        | .transportErr => (.error "Reqwest response is error", st, none)
        | .parseErr =>
          match update_user_auth st none now with
          | (_, st2, persisted) => (.ok (), st2, persisted)
        | .parsed a =>
          match update_user_auth st (some a) now with
          | (_, st2, persisted) => (.ok (), st2, persisted)

/-- `get_code_from_query_pairs` (`src/spotify_api.rs` lines 226–242), with
the url's query pairs presented as the list the `query_pairs()` iterator
yields in document order: scan the pairs in order; a pair with key
`"error"` returns `None`; a pair with key `"code"` returns its value; a
list exhausted without either returns `None`. -/
def get_code_from_query_pairs : List (String × String) → Option String
  | [] => none
  | (k, v) :: rest =>
    if k = "error" then none
    else if k = "code" then some v
    else get_code_from_query_pairs rest

/-- One secret held by the Bitwarden Secrets Manager: its internal id
(a `Uuid`, modelled as `Nat`), logical key, value, note, and project ids. -/
structure SecretEntry where
  id : Nat
  key : String
  value : String
  note : String
  project_ids : List Nat
deriving DecidableEq, Repr

/-- State the persistence path touches: the Secret Store's secrets (in
creation order), a source of fresh secret ids for `create` (the store
allocates Uuids; modelled as a counter strictly above every existing id),
and the content of the local `user_auth.json` file (the serialised bundle,
`none` if never written). -/
structure StoreState where
  secrets : List SecretEntry
  nextId : Nat
  userFile : Option String
deriving DecidableEq, Repr

/-- The id under which `list_secrets`' `HashMap<String, Uuid>` records `key`
(`src/local_store.rs` lines 111–121): the map is collected from the listed
secrets in order, so for a duplicated key the last entry wins. -/
def list_secrets_lookup (secrets : List SecretEntry) (key : String) : Option Nat :=
  (secrets.reverse.find? (fun s => s.key = key)).map (fun s => s.id)

/-- The effect of the store's `update` RPC (`SecretPutRequest`) on one
listed entry: the secret whose id was resolved gets the new
key/value/note/project ids, every other secret is untouched. -/
def updEntry (id projectId : Nat) (key value nt : String) (s : SecretEntry) :
    SecretEntry :=
  if s.id = id then
    { s with key := key, value := value, note := nt, project_ids := [projectId] }
  else s

/-- `CredStorage::put_secret` (`src/local_store.rs` lines 139–171) in the
success model (both RPCs succeed): if the listing resolves `key` to an id,
update that secret in place with the new key/value/note/project ids;
otherwise create a new secret under a fresh id. -/
def put_secret (st : StoreState) (projectId : Nat) (key value : String)
    (note : Option String) : StoreState :=
  match list_secrets_lookup st.secrets key with
  | none =>
    { st with
      secrets := st.secrets ++ [⟨st.nextId, key, value, note.getD "", [projectId]⟩]
      nextId := st.nextId + 1 }
  | some id =>
    { st with
      secrets := st.secrets.map (updEntry id projectId key value (note.getD "")) }

/-- `make_refresh_note` (`src/local_store.rs` lines 327–335), parameterised
by the serde serialiser for `RefreshNote` (`none` = serialisation failure):
a note is produced only when `last_refresh` is set. -/
def make_refresh_note (ser : RefreshNote → Option String) (data : UserAuthData) :
    Option String :=
  data.last_refresh.bind (fun ts => ser ⟨data.expires_in, some ts⟩)

/-- `store_json_data` (`src/local_store.rs` lines 356–369) applied to
`user_auth.json` in the success model for file I/O, parameterised by the
serde serialiser for `UserAuthData`: serialisation failure leaves the file
untouched (the `Err` is returned before the file is opened), success
truncates and rewrites it. -/
def store_user_file (st : StoreState) (ser : UserAuthData → Option String)
    (data : UserAuthData) : StoreState :=
  match ser data with
  | none => st
  | some j => { st with userFile := some j }

/-- `CredStorage::store_user_auth_data_async` (`src/local_store.rs` lines
299–324), the body of `persist_user_auth`: best-effort write of the local
file, then `put_secret` of `spotify_refresh_token_<user_id>` with the
refresh token and the `RefreshNote`, then `put_secret` of
`spotify_access_token_<user_id>` with the access token and the same note. -/
def store_user_auth_data_async (serUser : UserAuthData → Option String)
    (serNote : RefreshNote → Option String) (projectId : Nat)
    (user_auth : UserAuthData) (user_id : String) (st : StoreState) : StoreState :=
  let st1 := store_user_file st serUser user_auth
  let st2 := put_secret st1 projectId ("spotify_refresh_token_" ++ user_id)
    user_auth.refresh_token (make_refresh_note serNote user_auth)
  put_secret st2 projectId ("spotify_access_token_" ++ user_id)
    user_auth.access_token (make_refresh_note serNote user_auth)

/-- Well-formedness of a store state: secret ids are pairwise distinct and
every id is below the fresh-id counter (Uuids are unique; a freshly created
secret never collides with an existing one). -/
def StoreState.WF (st : StoreState) : Prop :=
  (st.secrets.map (fun s => s.id)).Nodup ∧ ∀ s ∈ st.secrets, s.id < st.nextId

/-- The store holds, under logical key `k`, a secret the listing resolves
to some id whose (unique) entry carries exactly value `v`, note `nt` and
project list `[p]`. -/
def SecretPinned (secrets : List SecretEntry) (p : Nat) (k v nt : String) : Prop :=
  ∃ id, list_secrets_lookup secrets k = some id ∧
    ∀ s ∈ secrets, s.id = id → s = ⟨id, k, v, nt, [p]⟩

/-- `PKCE_VALID_CHARS` from `src/pkce.rs` (the byte string
`b"~.-_ABCDEFGHIJKLMNOPQRSTUVWXYZabcdefghijklmnopqrstuvwxyz0123456789"`),
as the list of its byte values. -/
def PKCE_VALID_CHARS : List Nat :=
  ("~.-_ABCDEFGHIJKLMNOPQRSTUVWXYZabcdefghijklmnopqrstuvwxyz0123456789".toList).map
    Char.toNat

/-- `MAX_LEN` from `src/pkce.rs`. -/
def MAX_LEN : Nat := 128

/-- `generate_code_verifier` from `src/pkce.rs` lines 11–23: push `MAX_LEN`
bytes, each chosen from `PKCE_VALID_CHARS` by the thread RNG.  The RNG is
modelled by the arbitrary choice function `choose`, giving, for each loop
iteration, the index `slice::choose` picks (the slice is non-empty, so the
`expect` never fires). -/
def generate_code_verifier (choose : Nat → Fin PKCE_VALID_CHARS.length) :
    List Nat :=
  (List.range MAX_LEN).map (fun i => PKCE_VALID_CHARS.get (choose i))

/-- Reduction modulo 2^32, the `u32` arithmetic SHA-256 works in. -/
def w32 (x : Nat) : Nat := x % 4294967296

/-- Right rotation of a 32-bit word by `n` places. -/
def rotr32 (n x : Nat) : Nat := (x / 2 ^ n) ||| w32 (x * 2 ^ (32 - n))

/-- SHA-256 message-schedule function sigma0. -/
def sSigma0 (x : Nat) : Nat := rotr32 7 x ^^^ rotr32 18 x ^^^ (x / 2 ^ 3)

/-- SHA-256 message-schedule function sigma1. -/
def sSigma1 (x : Nat) : Nat := rotr32 17 x ^^^ rotr32 19 x ^^^ (x / 2 ^ 10)

/-- SHA-256 compression function Sigma0. -/
def bSigma0 (x : Nat) : Nat := rotr32 2 x ^^^ rotr32 13 x ^^^ rotr32 22 x

/-- SHA-256 compression function Sigma1. -/
def bSigma1 (x : Nat) : Nat := rotr32 6 x ^^^ rotr32 11 x ^^^ rotr32 25 x

/-- SHA-256 choice function `Ch(e,f,g) = (e AND f) XOR (NOT e AND g)`. -/
def shaCh (e f g : Nat) : Nat := (e &&& f) ^^^ ((w32 e ^^^ 4294967295) &&& g)

/-- SHA-256 majority function `Maj(a,b,c)`. -/
def shaMaj (a b c : Nat) : Nat := (a &&& b) ^^^ (a &&& c) ^^^ (b &&& c)

/-- The 64 SHA-256 round constants (FIPS 180-4). -/
def shaK : List Nat :=
  [1116352408, 1899447441, 3049323471, 3921009573, 961987163, 1508970993,
   2453635748, 2870763221, 3624381080, 310598401, 607225278, 1426881987,
   1925078388, 2162078206, 2614888103, 3248222580, 3835390401, 4022224774,
   264347078, 604807628, 770255983, 1249150122, 1555081692, 1996064986,
   2554220882, 2821834349, 2952996808, 3210313671, 3336571891, 3584528711,
   113926993, 338241895, 666307205, 773529912, 1294757372, 1396182291,
   1695183700, 1986661051, 2177026350, 2456956037, 2730485921, 2820302411,
   3259730800, 3345764771, 3516065817, 3600352804, 4094571909, 275423344,
   430227734, 506948616, 659060556, 883997877, 958139571, 1322822218,
   1537002063, 1747873779, 1955562222, 2024104815, 2227730452, 2361852424,
   2428436474, 2756734187, 3204031479, 3329325298]

/-- The eight 32-bit words of a SHA-256 state. -/
structure Hash8 where
  a : Nat
  b : Nat
  c : Nat
  d : Nat
  e : Nat
  f : Nat
  g : Nat
  h : Nat
deriving DecidableEq, Repr

/-- The SHA-256 initial hash value (FIPS 180-4). -/
def shaInit : Hash8 :=
  ⟨1779033703, 3144134277, 1013904242, 2773480762,
   1359893119, 2600822924, 528734635, 1541459225⟩

/-- Big-endian byte serialisation of `x` on `n` bytes. -/
def beBytes (n x : Nat) : List Nat :=
  (List.range n).map (fun i => x / 2 ^ (8 * (n - 1 - i)) % 256)

/-- SHA-256 padding: append `0x80`, then zeros up to 56 mod 64 bytes, then
the message bit length on 8 big-endian bytes. -/
def sha256_pad (msg : List Nat) : List Nat :=
  msg ++ 0x80 :: List.replicate ((119 - msg.length % 64) % 64) 0
      ++ beBytes 8 (8 * msg.length)

/-- Big-endian packing of a byte list into 32-bit words (four at a time). -/
def bytesToWords : List Nat → List Nat
  | b0 :: b1 :: b2 :: b3 :: rest =>
    (b0 * 16777216 + b1 * 65536 + b2 * 256 + b3) :: bytesToWords rest
  | _ => []

/-- Extend 16 message words to the 64-entry SHA-256 message schedule. -/
def sha256_schedule (w16 : List Nat) : List Nat :=
  (List.range 48).foldl (fun w _ =>
    let n := w.length
    w ++ [w32 (sSigma1 (w.getD (n - 2) 0) + w.getD (n - 7) 0
               + sSigma0 (w.getD (n - 15) 0) + w.getD (n - 16) 0)]) w16

/-- One SHA-256 compression round, consuming a `(k, w)` pair. -/
def sha256_round (st : Hash8) (kw : Nat × Nat) : Hash8 :=
  let t1 := w32 (st.h + bSigma1 st.e + shaCh st.e st.f st.g + kw.1 + kw.2)
  let t2 := w32 (bSigma0 st.a + shaMaj st.a st.b st.c)
  ⟨w32 (t1 + t2), st.a, st.b, st.c, w32 (st.d + t1), st.e, st.f, st.g⟩

/-- SHA-256 compression of one 64-byte chunk (given as 16 words) into the
running hash value. -/
def sha256_compress (hv : Hash8) (chunkWords : List Nat) : Hash8 :=
  let w := sha256_schedule chunkWords
  let st := (shaK.zip w).foldl sha256_round hv
  ⟨w32 (hv.a + st.a), w32 (hv.b + st.b), w32 (hv.c + st.c), w32 (hv.d + st.d),
   w32 (hv.e + st.e), w32 (hv.f + st.f), w32 (hv.g + st.g), w32 (hv.h + st.h)⟩

/-- Big-endian serialisation of one 32-bit word on 4 bytes. -/
def wordBytes (x : Nat) : List Nat :=
  [x / 16777216 % 256, x / 65536 % 256, x / 256 % 256, x % 256]

/-- Big-endian serialisation of a whole SHA-256 state (the digest). -/
def digestBytes (hv : Hash8) : List Nat :=
  wordBytes hv.a ++ wordBytes hv.b ++ wordBytes hv.c ++ wordBytes hv.d
    ++ wordBytes hv.e ++ wordBytes hv.f ++ wordBytes hv.g ++ wordBytes hv.h

/-- SHA-256 of a byte string (FIPS 180-4), as its 32-byte digest.  This
models the `sha2` crate's `Sha256` used by `encode_s256` in
`src/pkce.rs`. -/
def sha256 (msg : List Nat) : List Nat :=
  let padded := sha256_pad msg
  digestBytes ((List.range (padded.length / 64)).foldl
    (fun hv i => sha256_compress hv (bytesToWords ((padded.drop (64 * i)).take 64)))
    shaInit)

/-- The URL-safe base64 alphabet (RFC 4648 §5), used by
`BASE64_URL_SAFE_NO_PAD`. -/
def B64URL_ALPHABET : List Char :=
  "ABCDEFGHIJKLMNOPQRSTUVWXYZabcdefghijklmnopqrstuvwxyz0123456789-_".toList

/-- The alphabet character for a 6-bit group. -/
def b64Char (n : Nat) : Char := B64URL_ALPHABET.getD n 'A'

/-- URL-safe base64 without padding (RFC 4648 §5, pad omitted), the encoding
`BASE64_URL_SAFE_NO_PAD.encode` performs: each 3-byte group yields 4
characters; a final 2-byte group yields 3, a final 1-byte group 2. -/
def b64url_nopad : List Nat → List Char
  | b0 :: b1 :: b2 :: rest =>
    b64Char (b0 / 4) :: b64Char (b0 % 4 * 16 + b1 / 16)
      :: b64Char (b1 % 16 * 4 + b2 / 64) :: b64Char (b2 % 64) :: b64url_nopad rest
  | [b0, b1] =>
    [b64Char (b0 / 4), b64Char (b0 % 4 * 16 + b1 / 16), b64Char (b1 % 16 * 4)]
  | [b0] => [b64Char (b0 / 4), b64Char (b0 % 4 * 16)]
  | [] => []

/-- `encode_s256` from `src/pkce.rs` lines 30–37: the URL-safe-no-padding
base64 encoding of the SHA-256 digest of the input bytes. -/
def encode_s256 (input : List Nat) : String :=
  String.mk (b64url_nopad (sha256 input))

/-- Whether `b` is a UTF-8 continuation byte (`0x80`–`0xBF`). -/
def utf8Cont (b : Nat) : Bool := 128 ≤ b && b ≤ 191

/-- For a UTF-8 lead byte `b`: the number of continuation bytes that must
follow and the allowed range of the first of them (RFC 3629 well-formedness
table, which rejects overlong forms, surrogates and values above U+10FFFF);
`none` when `b` can not start a sequence. -/
def utf8_lead_info (b : Nat) : Option (Nat × Nat × Nat) :=
  if b ≤ 127 then some (0, 128, 191)
  else if 194 ≤ b && b ≤ 223 then some (1, 128, 191)
  else if b = 224 then some (2, 160, 191)
  else if 225 ≤ b && b ≤ 236 then some (2, 128, 191)
  else if b = 237 then some (2, 128, 159)
  else if 238 ≤ b && b ≤ 239 then some (2, 128, 191)
  else if b = 240 then some (3, 144, 191)
  else if 241 ≤ b && b ≤ 243 then some (3, 128, 191)
  else if b = 244 then some (3, 128, 143)
  else none

/-- UTF-8 validity of a byte string (RFC 3629, the property
`String::from_utf8` checks): each lead byte must be followed by the right
number of continuation bytes, the first in the lead-specific range and the
others in `0x80`–`0xBF`. -/
def utf8_valid : List Nat → Bool
  | [] => true
  | b :: rest =>
    match utf8_lead_info b with
    | none => false
    | some (n, lo, hi) =>
      (decide ((rest.take n).length = n) &&
        (match rest.take n with
         | [] => true
         | c1 :: cs => (lo ≤ c1 && c1 ≤ hi) && cs.all utf8Cont)) &&
      utf8_valid (rest.drop n)
termination_by l => l.length
decreasing_by
  simp only [List.length_cons, List.length_drop]
  omega

/-! ## Theorems settling the claims -/

/-- C1, counterexample: the claim says the freshness check returns true
exactly when elapsed ≥ `expires_in - 5`; for a credential with
`expires_in = 0` (the default the resolver's mismatch path synthesizes) and
`last_refresh` present, at elapsed 0 we have 0 ≥ 0 − 5, so the claim demands
`true`, but the code's wrapping `u64` margin makes the check return
`false`. -/
theorem C1_counterexample :
    (0 : Int) ≥ 0 - 5 ∧
    token_needs_refresh ⟨"at", "Bearer", "s", 0, "rt", some 100⟩ (some 0) = false := by
  exact ⟨by decide, by decide⟩

/-- C1, amended: the freshness check returns true when `last_refresh` is
absent, regardless of `expires_in`, and returns true when the elapsed-time
computation fails (both unconditionally); and for credentials whose
`expires_in` is at least 5 (so the 5-second margin does not wrap in `u64`
arithmetic) and within the `i64` range — `last_refresh` present, elapsed
computed — it returns true exactly when elapsed ≥ `expires_in - 5` (hence
false when elapsed < `expires_in - 5`). -/
theorem C1_needs_refresh_amended (auth : UserAuthData) (elapsed : Option Nat) :
    (auth.last_refresh = none → token_needs_refresh auth elapsed = true) ∧
    (elapsed = none → token_needs_refresh auth elapsed = true) ∧
    (5 ≤ auth.expires_in → auth.expires_in < 2 ^ 63 →
      ∀ t e, auth.last_refresh = some t → elapsed = some e →
      (token_needs_refresh auth elapsed = true ↔ auth.expires_in - 5 ≤ (e : Int))) := by
  refine ⟨?_, ?_, ?_⟩
  · intro h
    unfold token_needs_refresh
    rw [h]
  · intro h
    subst h
    unfold token_needs_refresh
    cases auth.last_refresh <;> rfl
  · intro h5 hmax t e hlr hel
    have hcast : i64AsU64 auth.expires_in = auth.expires_in.toNat := by
      unfold i64AsU64
      omega
    subst hel
    unfold token_needs_refresh
    rw [hlr]
    have hm : (i64AsU64 auth.expires_in + U64MOD - 5) % U64MOD
        = auth.expires_in.toNat - 5 := by
      rw [hcast]
      unfold U64MOD
      omega
    rw [hm]
    show (if e < auth.expires_in.toNat - 5 then false else true) = true
      ↔ auth.expires_in - 5 ≤ (e : Int)
    by_cases hlt : e < auth.expires_in.toNat - 5
    · rw [if_pos hlt]
      constructor
      · intro hc
        exact absurd hc (by simp)
      · intro hc
        exfalso
        omega
    · rw [if_neg hlt]
      constructor
      · intro _
        omega
      · intro _
        rfl

/-- C1, witness: a representative pair from the spec, `expires_in = 3600`,
`elapsed = 3596`: the amended theorem yields `needs_refresh = true`. -/
theorem C1_witness :
    token_needs_refresh ⟨"at", "Bearer", "s", 3600, "rt", some 0⟩ (some 3596) = true := by
  have h := C1_needs_refresh_amended ⟨"at", "Bearer", "s", 3600, "rt", some 0⟩
    (some 3596)
  exact (h.2.2 (by decide) (by decide) 0 3596 rfl rfl).mpr (by decide)

/-- C10, counterexample: the claim says a credential with `last_refresh`
present and `0 ≤ expires_in < 5` is never considered in need of refresh;
but at the representable elapsed value `2^64 - 1` seconds the wrapped
margin `2^64 - 5` is exceeded and the check does demand a refresh (and
when the elapsed computation fails the code also proceeds to refresh). -/
theorem C10_counterexample :
    token_needs_refresh ⟨"at", "Bearer", "s", 0, "rt", some 0⟩
      (some (U64MOD - 1)) = true := by
  decide

/-- C10, amended: with `last_refresh` present and `0 ≤ expires_in < 5`,
the margin is computed by an `i64`-to-`u64` cast and a wrapping subtraction
of 5, so it wraps to `2^64 - (5 - expires_in)`; consequently the token is
not considered in need of refresh for any successfully computed elapsed
value below that wrapped margin (every physically plausible one) — it is
still refreshed when the elapsed computation fails or elapsed reaches the
wrapped margin. -/
theorem C10_wrap_amended (auth : UserAuthData) (t e : Nat)
    (hlr : auth.last_refresh = some t)
    (h0 : 0 ≤ auth.expires_in) (h5 : auth.expires_in < 5)
    (he : e < U64MOD - (5 - auth.expires_in.toNat)) :
    (i64AsU64 auth.expires_in + U64MOD - 5) % U64MOD
        = U64MOD - (5 - auth.expires_in.toNat) ∧
    token_needs_refresh auth (some e) = false := by
  have hcast : i64AsU64 auth.expires_in = auth.expires_in.toNat := by
    unfold i64AsU64
    omega
  have hm : (i64AsU64 auth.expires_in + U64MOD - 5) % U64MOD
      = U64MOD - (5 - auth.expires_in.toNat) := by
    rw [hcast]
    unfold U64MOD
    omega
  refine ⟨hm, ?_⟩
  unfold token_needs_refresh
  rw [hlr, hm]
  simp only [he, if_true]

/-- C10, witness: the resolver-synthesized default `expires_in = 0` with
`last_refresh` present, one thousand seconds elapsed: no refresh. -/
theorem C10_witness :
    token_needs_refresh ⟨"at", "Bearer", "s", 0, "rt", some 7⟩ (some 1000) = false := by
  exact (C10_wrap_amended ⟨"at", "Bearer", "s", 0, "rt", some 7⟩ 7 1000 rfl
    (by decide) (by decide) (by decide)).2

/-- C2: when the local user token bundle loads successfully and the
freshness check says it is not expired, `resolve_user_auth`
(`load_user_auth_data_async`) returns that local bundle verbatim and
performs no Secret Store call of any kind (empty remote-call trace). -/
theorem C2_fast_path (env : ResolveEnv) (user_id : String) (d : UserAuthData)
    (hload : load_json_data env.parseUser env.userFile = .ok d)
    (hfresh : token_needs_refresh d env.elapsed = false) :
    load_user_auth_data_async env user_id = (some d, []) := by
  unfold load_user_auth_data_async
  rw [hload]
  simp [hfresh]

/-- C2, witness: a concrete environment with an unexpired local bundle
resolves to it with zero remote invocations. -/
theorem C2_witness :
    load_user_auth_data_async
      ⟨.present "j", fun _ => some ⟨"at", "Bearer", "s", 3600, "rt", some 0⟩,
       some 10, .error (), .error (), fun _ => none⟩ "jorge"
      = (some ⟨"at", "Bearer", "s", 3600, "rt", some 0⟩, []) := by
  exact C2_fast_path _ "jorge" ⟨"at", "Bearer", "s", 3600, "rt", some 0⟩ rfl (by decide)

/-- C3: when the Secret Store fetch of the refresh-token secret fails,
the resolver returns whatever the local load yielded (the possibly stale
local bundle if one loaded, `none` otherwise) — the return type is an
`Option`, never an error; and the resolver returns `none` only when the
local load failed and the remote refresh-token fetch failed too. -/
theorem C3_remote_failure (env : ResolveEnv) (user_id : String) :
    (env.refreshSecret = .error () →
      (load_user_auth_data_async env user_id).1 =
        (load_json_data env.parseUser env.userFile).toOption) ∧
    ((load_user_auth_data_async env user_id).1 = none →
      (load_json_data env.parseUser env.userFile).toOption = none ∧
        env.refreshSecret = .error ()) := by
  unfold load_user_auth_data_async
  cases hld : load_json_data env.parseUser env.userFile with
  | ok d =>
    by_cases hfresh : token_needs_refresh d env.elapsed = false
    · simp [hfresh, Except.toOption]
    · simp only [hfresh, if_false, resolveRemote]
      cases hrf : env.refreshSecret with
      | error u => simp [Except.toOption]
      | ok p =>
        cases p with
        | mk rt note =>
          by_cases hmatch : (some d).any (fun l => rt = l.refresh_token) = true
          · simp [hmatch]
          · simp [hmatch]
  | error le =>
    simp only [resolveRemote]
    cases hrf : env.refreshSecret with
    | error u =>
      cases u
      simp [Except.toOption]
    | ok p =>
      cases p with
      | mk rt note => simp

/-- C3, witness: local bundle present but expired, remote unreachable —
the stale local bundle is returned, not an error and not `none`. -/
theorem C3_witness :
    (load_user_auth_data_async
      ⟨.present "j", fun _ => some ⟨"at", "Bearer", "s", 3600, "rt", some 0⟩,
       some 4000, .error (), .error (), fun _ => none⟩ "jorge").1
      = some ⟨"at", "Bearer", "s", 3600, "rt", some 0⟩ := by
  exact (C3_remote_failure
    ⟨.present "j", fun _ => some ⟨"at", "Bearer", "s", 3600, "rt", some 0⟩,
     some 4000, .error (), .error (), fun _ => none⟩ "jorge").1 rfl

/-- C4: when the remote refresh-token fetch succeeds with value `rt` and
note `note` (reached when the local bundle is absent or expired): a local
bundle whose `refresh_token` equals `rt` is returned unchanged; otherwise
(mismatch, or no local bundle) the resolver returns a synthesized
`UserAuthData` whose `refresh_token` is `rt`, whose `access_token` is the
remote access-token secret's value or `""` if that fetch fails, whose
`token_type` is `"Bearer"`, whose `scope` is the fixed scope string, and
whose `expires_in`/`last_refresh` come from parsing the `RefreshNote` in
`note`, defaulting to `0`/`none` when it is malformed. -/
theorem C4_remote_success (env : ResolveEnv) (user_id rt note : String)
    (hfetch : env.refreshSecret = .ok (rt, note)) :
    (∀ d, load_json_data env.parseUser env.userFile = .ok d →
      token_needs_refresh d env.elapsed = true → rt = d.refresh_token →
      (load_user_auth_data_async env user_id).1 = some d) ∧
    (∀ d, load_json_data env.parseUser env.userFile = .ok d →
      token_needs_refresh d env.elapsed = true → rt ≠ d.refresh_token →
      (load_user_auth_data_async env user_id).1 = some
        { access_token := ((env.accessSecret.toOption).map Prod.fst).getD ""
          token_type := "Bearer"
          scope := SCOPE
          expires_in := ((env.parseNote note).getD RefreshNote.default).expires_in
          refresh_token := rt
          last_refresh := ((env.parseNote note).getD RefreshNote.default).last_refresh }) ∧
    (∀ le, load_json_data env.parseUser env.userFile = .error le →
      (load_user_auth_data_async env user_id).1 = some
        { access_token := ((env.accessSecret.toOption).map Prod.fst).getD ""
          token_type := "Bearer"
          scope := SCOPE
          expires_in := ((env.parseNote note).getD RefreshNote.default).expires_in
          refresh_token := rt
          last_refresh := ((env.parseNote note).getD RefreshNote.default).last_refresh }) := by
  refine ⟨?_, ?_, ?_⟩
  · intro d hld hfresh hmatch
    unfold load_user_auth_data_async
    rw [hld]
    simp only [hfresh, resolveRemote, hfetch]
    simp [← hmatch]
  · intro d hld hfresh hmatch
    unfold load_user_auth_data_async
    rw [hld]
    simp only [hfresh, resolveRemote, hfetch]
    simp only [Option.any_some, hmatch, decide_eq_true_eq, if_false]
    cases hacc : env.accessSecret with
    | error u => simp [Except.toOption]
    | ok p => simp [Except.toOption]
  · intro le hld
    unfold load_user_auth_data_async
    rw [hld]
    simp only [resolveRemote, hfetch]
    cases hacc : env.accessSecret with
    | error u => simp [Except.toOption]
    | ok p => simp [Except.toOption]

/-- C4, witness: local bundle present but expired with a mismatching
refresh token; remote refresh token `"remote-rt"` with a malformed note and
a successful access-token fetch — the synthesized bundle is returned. -/
theorem C4_witness :
    (load_user_auth_data_async
      ⟨.present "j", fun _ => some ⟨"at", "Bearer", "s", 3600, "local-rt", some 0⟩,
       some 4000, .ok ("remote-rt", "garbage"), .ok ("remote-at", ""),
       fun _ => none⟩ "jorge").1
      = some ⟨"remote-at", "Bearer", SCOPE, 0, "remote-rt", none⟩ := by
  exact (C4_remote_success
    ⟨.present "j", fun _ => some ⟨"at", "Bearer", "s", 3600, "local-rt", some 0⟩,
     some 4000, .ok ("remote-rt", "garbage"), .ok ("remote-at", ""),
     fun _ => none⟩ "jorge" "remote-rt" "garbage" rfl).2.1
    ⟨"at", "Bearer", "s", 3600, "local-rt", some 0⟩ rfl (by decide) (by decide)

/-- C5, counterexample: the claim says the refresh fails with
`RefreshFailed` when the response body is non-parseable; but
`refresh_access_token` only logs the `Err` that `update_user_auth` returns
for a non-parseable body and then returns `Ok(())` — here a credential pair
that needs a refresh meets a non-parseable response and the operation
reports success, leaving the in-memory credential unchanged and persisting
nothing. -/
theorem C5_counterexample :
    refresh_access_token
      ⟨some ⟨"cid", none⟩, some ⟨"at", "Bearer", "s", 3600, "rt", some 0⟩⟩
      (some 4000) .parseErr 5000
      = (.ok (), ⟨some ⟨"cid", none⟩, some ⟨"at", "Bearer", "s", 3600, "rt", some 0⟩⟩,
         none) := by
  rfl

/-- C5, amended: for a credential pair that needs a refresh, the operation
fails exactly when the token-endpoint exchange has a transport failure; a
non-parseable response body is only logged — the operation still reports
success, with the in-memory credential unchanged and nothing persisted; on
a parseable response it stamps `last_refresh = now` on the received bundle,
persists that bundle, and installs it as the authoritative in-memory
credential. -/
theorem C5_refresh_amended (st : SpotifyClientState) (app : AppAuthData)
    (auth : UserAuthData) (elapsed : Option Nat) (http : HttpOutcome) (now : Nat)
    (happ : st.app_auth = some app) (huser : st.user_auth = some auth)
    (hneed : token_needs_refresh auth elapsed = true) :
    (http = .transportErr →
      refresh_access_token st elapsed http now
        = (.error "Reqwest response is error", st, none)) ∧
    (http = .parseErr →
      refresh_access_token st elapsed http now = (.ok (), st, none)) ∧
    (∀ a, http = .parsed a →
      refresh_access_token st elapsed http now
        = (.ok (),
           { st with user_auth := some { a with last_refresh := some now } },
           some { a with last_refresh := some now })) := by
  refine ⟨?_, ?_, ?_⟩
  · intro h
    subst h
    unfold refresh_access_token
    rw [happ, huser]
    simp [hneed]
  · intro h
    subst h
    unfold refresh_access_token
    rw [happ, huser]
    simp [hneed, update_user_auth]
  · intro a h
    subst h
    unfold refresh_access_token
    rw [happ, huser]
    simp [hneed, update_user_auth, happ]

/-- C5, witness: a parseable refresh response for an expired credential is
stamped with `last_refresh = now`, persisted, and installed in memory. -/
theorem C5_witness :
    refresh_access_token
      ⟨some ⟨"cid", none⟩, some ⟨"at", "Bearer", "s", 3600, "rt", some 0⟩⟩
      (some 4000) (.parsed ⟨"at2", "Bearer", "s", 3600, "rt2", none⟩) 5000
      = (.ok (),
         ⟨some ⟨"cid", none⟩, some ⟨"at2", "Bearer", "s", 3600, "rt2", some 5000⟩⟩,
         some ⟨"at2", "Bearer", "s", 3600, "rt2", some 5000⟩) := by
  exact (C5_refresh_amended
    ⟨some ⟨"cid", none⟩, some ⟨"at", "Bearer", "s", 3600, "rt", some 0⟩⟩
    ⟨"cid", none⟩ ⟨"at", "Bearer", "s", 3600, "rt", some 0⟩
    (some 4000) (.parsed ⟨"at2", "Bearer", "s", 3600, "rt2", none⟩) 5000
    rfl rfl (by decide)).2.2 ⟨"at2", "Bearer", "s", 3600, "rt2", none⟩ rfl

/-- C7, counterexample: the claim says a query string containing an
`error` parameter yields no code; but the scan returns the first relevant
parameter, so a query whose `code` pair precedes its `error` pair yields
the code. -/
theorem C7_counterexample :
    ("error", "access_denied") ∈ [("code", "X"), ("error", "access_denied")] ∧
    get_code_from_query_pairs [("code", "X"), ("error", "access_denied")]
      = some "X" := by
  exact ⟨by decide, rfl⟩

/-- C7, amended: scanning the query pairs in document order, the first pair
whose key is `"error"` or `"code"` decides the outcome — `"error"` yields no
code (failure), `"code"` yields that pair's value exactly; a query with
neither yields no code (malformed input, failure). -/
theorem C7_first_error_or_code (qs : List (String × String)) :
    get_code_from_query_pairs qs =
      match qs.find? (fun p => p.1 = "error" || p.1 = "code") with
      | some p => if p.1 = "code" then some p.2 else none
      | none => none := by
  induction qs with
  | nil => rfl
  | cons p rest ih =>
    by_cases herr : p.1 = "error"
    · rw [List.find?_cons_of_pos _ (by simp [herr])]
      simp [get_code_from_query_pairs, herr]
    · by_cases hcode : p.1 = "code"
      · rw [List.find?_cons_of_pos _ (by simp [hcode])]
        simp [get_code_from_query_pairs, herr, hcode]
      · rw [List.find?_cons_of_neg _ (by simp [herr, hcode])]
        cases p with
        | mk k v => simp only [get_code_from_query_pairs] at *
                    rw [if_neg (by simpa using herr), if_neg (by simpa using hcode)]
                    exact ih

/-- C8: the Local Cache load fails with three mutually distinguishable
outcomes — `absent` (underlying `NotFound` I/O error) when the file does
not exist, `corrupt` (underlying serde error) when it exists but fails to
parse, and `ioFailure` for other access failures (a failing existence
check, or a read failing for another reason) — pairwise distinct, so a
caller can apply a different fallback policy to each. -/
theorem C8_load_outcomes {D : Type} (parse : String → Option D) :
    load_json_data parse .missing = .error .absent ∧
    (∀ c, parse c = none → load_json_data parse (.present c) = .error .corrupt) ∧
    load_json_data parse .existsCheckFails = .error .ioFailure ∧
    load_json_data parse .readFails = .error .ioFailure ∧
    (LoadErr.absent ≠ LoadErr.corrupt ∧ LoadErr.absent ≠ LoadErr.ioFailure ∧
      LoadErr.corrupt ≠ LoadErr.ioFailure) := by
  refine ⟨rfl, ?_, rfl, rfl, by decide, by decide, by decide⟩
  intro c hc
  simp [load_json_data, hc]

/-- C8, witness: a deserialiser rejecting every content, applied to a
present-but-unparseable file, gives the `corrupt` outcome. -/
theorem C8_witness :
    load_json_data (fun _ => (none : Option UserAuthData)) (.present "oops")
      = .error .corrupt := by
  exact (C8_load_outcomes (fun _ => (none : Option UserAuthData))).2.1 "oops" rfl

/-- The serialised SHA-256 state has exactly 32 bytes. -/
theorem digestBytes_length (hv : Hash8) : (digestBytes hv).length = 32 := by
  simp [digestBytes, wordBytes]

/-- The SHA-256 digest of any byte string has exactly 32 bytes. -/
theorem sha256_length (msg : List Nat) : (sha256 msg).length = 32 := by
  unfold sha256
  exact digestBytes_length _

/-- Length of the URL-safe-no-padding base64 encoding as a function of the
input length: 4 characters per 3-byte group, 3 (resp. 2) for a trailing
2-byte (resp. 1-byte) group. -/
theorem b64url_nopad_length (l : List Nat) :
    (b64url_nopad l).length
      = 4 * (l.length / 3) + (if l.length % 3 = 0 then 0 else l.length % 3 + 1) := by
  induction l using b64url_nopad.induct with
  | case1 b0 b1 b2 rest ih =>
    simp only [b64url_nopad, List.length_cons, ih]
    have h3 : (rest.length + 1 + 1 + 1) % 3 = rest.length % 3 := by omega
    have h4 : (rest.length + 1 + 1 + 1) / 3 = rest.length / 3 + 1 := by omega
    rw [h3, h4]
    split <;> omega
  | case2 b0 b1 => simp [b64url_nopad]
  | case3 b0 => simp [b64url_nopad]
  | case4 => simp [b64url_nopad]

/-- A byte string of ASCII bytes (all below 0x80) is valid UTF-8. -/
theorem utf8_valid_of_ascii (l : List Nat) (h : l.all (fun b => b ≤ 127) = true) :
    utf8_valid l = true := by
  induction l with
  | nil => simp [utf8_valid]
  | cons b rest ih =>
    rw [List.all_cons, Bool.and_eq_true] at h
    have hb : b ≤ 127 := by simpa using h.1
    have hlead : utf8_lead_info b = some (0, 128, 191) := by
      unfold utf8_lead_info
      rw [if_pos hb]
    unfold utf8_valid
    rw [hlead]
    simp [ih h.2]

/-- Every byte of the PKCE character set is ASCII. -/
theorem pkce_chars_ascii : PKCE_VALID_CHARS.all (fun b => b ≤ 127) = true := by
  decide

/-- Every generated verifier byte is drawn from `PKCE_VALID_CHARS`. -/
theorem generate_code_verifier_mem (choose : Nat → Fin PKCE_VALID_CHARS.length)
    (b : Nat) (hb : b ∈ generate_code_verifier choose) : b ∈ PKCE_VALID_CHARS := by
  unfold generate_code_verifier at hb
  rw [List.mem_map] at hb
  obtain ⟨i, _, hi⟩ := hb
  rw [← hi]
  exact PKCE_VALID_CHARS.get_mem (choose i).1 (choose i).2

/-- C6: every generated PKCE code verifier has length exactly 128 bytes,
every byte drawn from the unreserved character set, is valid UTF-8 text,
and its derived code challenge — the URL-safe-no-padding base64 encoding of
the verifier's SHA-256 digest — is a 43-character string. -/
theorem C6_pkce_verifier (choose : Nat → Fin PKCE_VALID_CHARS.length) :
    (generate_code_verifier choose).length = 128 ∧
    (generate_code_verifier choose).all
      (fun b => PKCE_VALID_CHARS.contains b) = true ∧
    utf8_valid (generate_code_verifier choose) = true ∧
    (encode_s256 (generate_code_verifier choose)).length = 43 := by
  refine ⟨?_, ?_, ?_, ?_⟩
  · simp [generate_code_verifier, MAX_LEN]
  · rw [List.all_eq_true]
    intro b hb
    have hmem := generate_code_verifier_mem choose b hb
    exact List.elem_iff.mpr hmem
  · refine utf8_valid_of_ascii _ ?_
    rw [List.all_eq_true]
    intro b hb
    have hmem := generate_code_verifier_mem choose b hb
    have := List.all_eq_true.mp pkce_chars_ascii b hmem
    simpa using this
  · show (String.mk (b64url_nopad (sha256 (generate_code_verifier choose)))).length = 43
    show (b64url_nopad (sha256 (generate_code_verifier choose))).length = 43
    rw [b64url_nopad_length, sha256_length]
    norm_num

/-- Under distinct ids, two store entries with the same id are equal. -/
theorem id_unique (l : List SecretEntry)
    (hnd : (l.map (fun s => s.id)).Nodup)
    (s t : SecretEntry) (hs : s ∈ l) (ht : t ∈ l) (hid : s.id = t.id) : s = t := by
  induction l with
  | nil => cases hs
  | cons a l ih =>
    rw [List.map_cons, List.nodup_cons] at hnd
    cases hs with
    | head =>
      cases ht with
      | head => rfl
      | tail _ ht2 =>
        exact absurd (hid ▸ List.mem_map_of_mem (fun s => s.id) ht2) hnd.1
    | tail _ hs2 =>
      cases ht with
      | head =>
        exact absurd (hid ▸ List.mem_map_of_mem (fun s => s.id) hs2) hnd.1
      | tail _ ht2 => exact ih hnd.2 hs2 ht2

/-- A successful listing lookup names the id of an entry with that key. -/
theorem lookup_mem (secrets : List SecretEntry) (k : String) (id : Nat)
    (h : list_secrets_lookup secrets k = some id) :
    ∃ s, s ∈ secrets ∧ s.key = k ∧ s.id = id := by
  unfold list_secrets_lookup at h
  cases hf : secrets.reverse.find? (fun s => s.key = k) with
  | none => rw [hf] at h; cases h
  | some s0 =>
    rw [hf] at h
    simp only [Option.map_some'] at h
    refine ⟨s0, List.mem_reverse.mp (List.mem_of_find?_eq_some hf), ?_,
      Option.some_injective _ h⟩
    simpa using List.find?_some hf

/-- The listing lookup after appending one entry: the new entry wins for
its own key (the `HashMap` collects later entries over earlier ones), other
keys are unaffected. -/
theorem lookup_append (secrets : List SecretEntry) (e : SecretEntry) (k : String) :
    list_secrets_lookup (secrets ++ [e]) k =
      if e.key = k then some e.id else list_secrets_lookup secrets k := by
  unfold list_secrets_lookup
  rw [List.reverse_append]
  simp only [List.reverse_cons, List.reverse_nil, List.nil_append,
    List.singleton_append]
  by_cases he : e.key = k
  · rw [List.find?_cons_of_pos _ (by simpa using he), if_pos he]
    rfl
  · rw [List.find?_cons_of_neg _ (by simpa using he), if_neg he]

/-- `find?` by key commutes with mapping a key-preserving function. -/
theorem find?_key_map (l : List SecretEntry) (g : SecretEntry → SecretEntry)
    (k : String) (hkey : ∀ s ∈ l, (g s).key = s.key) :
    (l.map g).find? (fun s => s.key = k)
      = (l.find? (fun s => s.key = k)).map g := by
  induction l with
  | nil => rfl
  | cons a l ih =>
    rw [List.map_cons]
    by_cases ha : a.key = k
    · rw [List.find?_cons_of_pos _
        (by simp [hkey a (List.mem_cons_self a l), ha]),
        List.find?_cons_of_pos _ (by simpa using ha)]
      rfl
    · rw [List.find?_cons_of_neg _
        (by simp [hkey a (List.mem_cons_self a l), ha]),
        List.find?_cons_of_neg _ (by simpa using ha)]
      exact ih (fun s hs => hkey s (List.mem_cons_of_mem a hs))

/-- The listing lookup is unchanged by mapping a key- and id-preserving
function over the secrets. -/
theorem lookup_map (l : List SecretEntry) (g : SecretEntry → SecretEntry)
    (k : String) (hkey : ∀ s ∈ l, (g s).key = s.key)
    (hid : ∀ s, (g s).id = s.id) :
    list_secrets_lookup (l.map g) k = list_secrets_lookup l k := by
  unfold list_secrets_lookup
  rw [← List.map_reverse,
    find?_key_map _ g k (fun s hs => hkey s (List.mem_reverse.mp hs))]
  cases hf : l.reverse.find? (fun s => s.key = k) with
  | none => rfl
  | some s0 => simp [hid]

/-- `updEntry` never changes an entry's id. -/
theorem updEntry_id (id p : Nat) (k v nt : String) (s : SecretEntry) :
    (updEntry id p k v nt s).id = s.id := by
  unfold updEntry
  split <;> rfl

/-- `put_secret` preserves store well-formedness. -/
theorem put_secret_WF (st : StoreState) (p : Nat) (k v : String)
    (n : Option String) (hwf : st.WF) : (put_secret st p k v n).WF := by
  obtain ⟨hnd, hlt⟩ := hwf
  unfold put_secret
  cases hlk : list_secrets_lookup st.secrets k with
  | none =>
    constructor
    · rw [List.map_append]
      rw [List.nodup_append]
      refine ⟨hnd, List.nodup_singleton _, ?_⟩
      intro x hx hx2
      simp only [List.map_cons, List.map_nil, List.mem_singleton] at hx2
      rw [List.mem_map] at hx
      obtain ⟨s, hs, hsid⟩ := hx
      exact absurd (hx2 ▸ hsid ▸ hlt s hs) (by simp)
    · intro s hs
      rw [List.mem_append] at hs
      cases hs with
      | inl h => exact Nat.lt_succ_of_lt (hlt s h)
      | inr h =>
        simp only [List.mem_singleton] at h
        subst h
        exact Nat.lt_succ_self _
  | some id =>
    constructor
    · have : (st.secrets.map (updEntry id p k v (n.getD ""))).map (fun s => s.id)
          = st.secrets.map (fun s => s.id) := by
        rw [List.map_map]
        exact List.map_congr_left (fun s _ => updEntry_id id p k v (n.getD "") s)
      rw [this]
      exact hnd
    · intro s hs
      rw [List.mem_map] at hs
      obtain ⟨s0, hs0, hmap⟩ := hs
      have := updEntry_id id p k v (n.getD "") s0
      rw [hmap] at this
      rw [this]
      exact hlt s0 hs0

/-- `put_secret` pins its key to its value, note and project. -/
theorem put_secret_pinned (st : StoreState) (p : Nat) (k v : String)
    (n : Option String) (hwf : st.WF) :
    SecretPinned (put_secret st p k v n).secrets p k v (n.getD "") := by
  obtain ⟨hnd, hlt⟩ := hwf
  unfold put_secret
  cases hlk : list_secrets_lookup st.secrets k with
  | none =>
    refine ⟨st.nextId, ?_, ?_⟩
    · rw [lookup_append]
      simp
    · intro s hs hsid
      rw [List.mem_append] at hs
      cases hs with
      | inl h => exact absurd (hsid ▸ hlt s h) (by simp)
      | inr h =>
        simp only [List.mem_singleton] at h
        subst h
        rfl
  | some id =>
    obtain ⟨s0, hs0, hs0k, hs0id⟩ := lookup_mem st.secrets k id hlk
    have hkey : ∀ s ∈ st.secrets, (updEntry id p k v (n.getD "") s).key = s.key := by
      intro s hs
      unfold updEntry
      split
      · next hsid =>
        have : s = s0 := id_unique st.secrets hnd s s0 hs hs0 (by rw [hsid, hs0id])
        rw [this, hs0k]
      · rfl
    refine ⟨id, ?_, ?_⟩
    · rw [lookup_map _ _ _ hkey (updEntry_id id p k v (n.getD ""))]
      exact hlk
    · intro s hs hsid
      rw [List.mem_map] at hs
      obtain ⟨s1, hs1, hmap⟩ := hs
      have hid1 : s1.id = id := by
        have := updEntry_id id p k v (n.getD "") s1
        rw [hmap] at this
        rw [← this, hsid]
      rw [← hmap]
      unfold updEntry
      rw [if_pos hid1, hid1]

/-- On a store already pinned to the same key/value/note/project,
`put_secret` is the identity. -/
theorem put_secret_of_pinned (st : StoreState) (p : Nat) (k v : String)
    (n : Option String) (hpin : SecretPinned st.secrets p k v (n.getD "")) :
    put_secret st p k v n = st := by
  obtain ⟨id, hlk, hcontent⟩ := hpin
  unfold put_secret
  rw [hlk]
  have hmap : st.secrets.map (updEntry id p k v (n.getD "")) = st.secrets := by
    have h1 : ∀ s ∈ st.secrets, updEntry id p k v (n.getD "") s = s := by
      intro s hs
      unfold updEntry
      split
      · next hsid => rw [hcontent s hs hsid]
      · rfl
    rw [List.map_congr_left h1]
    exact List.map_id' st.secrets
  simp only [hmap]

/-- `put_secret` on one key preserves the pinned state of a different key. -/
theorem pinned_of_put_ne (st : StoreState) (p p2 : Nat) (k v nt k2 v2 : String)
    (n2 : Option String) (hwf : st.WF) (hne : k2 ≠ k)
    (hpin : SecretPinned st.secrets p k v nt) :
    SecretPinned (put_secret st p2 k2 v2 n2).secrets p k v nt := by
  obtain ⟨hnd, hlt⟩ := hwf
  obtain ⟨id, hlk, hcontent⟩ := hpin
  obtain ⟨s0, hs0, hs0k, hs0id⟩ := lookup_mem st.secrets k id hlk
  unfold put_secret
  cases hlk2 : list_secrets_lookup st.secrets k2 with
  | none =>
    refine ⟨id, ?_, ?_⟩
    · rw [lookup_append, if_neg hne]
      exact hlk
    · intro s hs hsid
      rw [List.mem_append] at hs
      cases hs with
      | inl h => exact hcontent s h hsid
      | inr h =>
        simp only [List.mem_singleton] at h
        subst h
        exact absurd (hsid ▸ hs0id ▸ hlt s0 hs0) (by simp)
  | some id2 =>
    obtain ⟨s2, hs2, hs2k, hs2id⟩ := lookup_mem st.secrets k2 id2 hlk2
    have hidne : id ≠ id2 := by
      intro hcontra
      have : s2 = ⟨id, k, v, nt, [p]⟩ := hcontent s2 hs2 (by rw [hs2id, hcontra])
      rw [this] at hs2k
      exact hne hs2k.symm
    have hkey : ∀ s ∈ st.secrets,
        (updEntry id2 p2 k2 v2 (n2.getD "") s).key = s.key := by
      intro s hs
      unfold updEntry
      split
      · next hsid =>
        have : s = s2 := id_unique st.secrets hnd s s2 hs hs2 (by rw [hsid, hs2id])
        rw [this, hs2k]
      · rfl
    refine ⟨id, ?_, ?_⟩
    · rw [lookup_map _ _ _ hkey (updEntry_id id2 p2 k2 v2 (n2.getD ""))]
      exact hlk
    · intro s hs hsid
      rw [List.mem_map] at hs
      obtain ⟨s1, hs1, hmap⟩ := hs
      have hid1 : s1.id = id := by
        have := updEntry_id id2 p2 k2 v2 (n2.getD "") s1
        rw [hmap] at this
        rw [← this, hsid]
      have hg : updEntry id2 p2 k2 v2 (n2.getD "") s1 = s1 := by
        unfold updEntry
        rw [if_neg (by rw [hid1]; exact hidne)]
      rw [← hmap, hg]
      exact hcontent s1 hs1 hid1

/-- `store_user_file` only touches the local file, never the secrets or the
fresh-id counter. -/
theorem store_user_file_secrets (st : StoreState) (ser : UserAuthData → Option String)
    (data : UserAuthData) :
    (store_user_file st ser data).secrets = st.secrets ∧
    (store_user_file st ser data).nextId = st.nextId := by
  unfold store_user_file
  cases ser data <;> exact ⟨rfl, rfl⟩

/-- `put_secret` never touches the local file. -/
theorem put_secret_userFile (st : StoreState) (p : Nat) (k v : String)
    (n : Option String) : (put_secret st p k v n).userFile = st.userFile := by
  unfold put_secret
  cases list_secrets_lookup st.secrets k <;> rfl

/-- Well-formedness only concerns the secrets, so `store_user_file`
preserves it. -/
theorem store_user_file_WF (st : StoreState) (ser : UserAuthData → Option String)
    (data : UserAuthData) (hwf : st.WF) : (store_user_file st ser data).WF := by
  obtain ⟨h1, h2⟩ := store_user_file_secrets st ser data
  unfold StoreState.WF
  rw [h1, h2]
  exact hwf

/-- The refresh-token and access-token logical keys differ for every
user id (their fixed prefixes already differ at the ninth character). -/
theorem secret_keys_ne (user_id : String) :
    ("spotify_access_token_" ++ user_id) ≠ ("spotify_refresh_token_" ++ user_id) := by
  intro h
  have hd := congrArg (fun s => s.data[8]?) h
  simp only [String.data_append] at hd
  rw [List.getElem?_append_left (by decide), List.getElem?_append_left (by decide)] at hd
  exact absurd hd (by decide)

/-- C9: persisting the same `UserAuthData` twice in a row leaves the local
cache and both Secret Store entries (refresh-token and access-token
secrets, with their notes) in the same final state as persisting it once —
the second run rewrites the file with the same serialisation and resolves
each key to the entry the first run created or updated, updating it with
identical content. -/
theorem C9_persist_idempotent (serUser : UserAuthData → Option String)
    (serNote : RefreshNote → Option String) (projectId : Nat)
    (data : UserAuthData) (user_id : String) (st : StoreState) (hwf : st.WF) :
    store_user_auth_data_async serUser serNote projectId data user_id
      (store_user_auth_data_async serUser serNote projectId data user_id st)
      = store_user_auth_data_async serUser serNote projectId data user_id st := by
  set kR := "spotify_refresh_token_" ++ user_id with hkR
  set kA := "spotify_access_token_" ++ user_id with hkA
  set nt := make_refresh_note serNote data with hnt
  set st0 := store_user_file st serUser data with hst0
  set st1 := put_secret st0 projectId kR data.refresh_token nt with hst1
  set st2 := put_secret st1 projectId kA data.access_token nt with hst2
  have hone : store_user_auth_data_async serUser serNote projectId data user_id st
      = st2 := rfl
  have hwf0 : st0.WF := store_user_file_WF st serUser data hwf
  have hwf1 : st1.WF := put_secret_WF st0 projectId kR data.refresh_token nt hwf0
  have hwf2 : st2.WF := put_secret_WF st1 projectId kA data.access_token nt hwf1
  have hpinR1 : SecretPinned st1.secrets projectId kR data.refresh_token (nt.getD "") :=
    put_secret_pinned st0 projectId kR data.refresh_token nt hwf0
  have hpinR2 : SecretPinned st2.secrets projectId kR data.refresh_token (nt.getD "") :=
    pinned_of_put_ne st1 projectId projectId kR data.refresh_token (nt.getD "")
      kA data.access_token nt hwf1 (secret_keys_ne user_id) hpinR1
  have hpinA2 : SecretPinned st2.secrets projectId kA data.access_token (nt.getD "") :=
    put_secret_pinned st1 projectId kA data.access_token nt hwf1
  -- the second run's local-file write is a no-op on `st2`
  have hfile2 : store_user_file st2 serUser data = st2 := by
    have huf : st2.userFile = st0.userFile := by
      rw [hst2, put_secret_userFile, hst1, put_secret_userFile]
    unfold store_user_file
    cases hser : serUser data with
    | none => rfl
    | some j =>
      have huf0 : st0.userFile = some j := by
        rw [hst0]
        unfold store_user_file
        rw [hser]
      obtain ⟨s2sec, s2next, s2file⟩ := st2
      simp only at huf
      rw [show s2file = some j from huf.trans huf0]
  -- the second run's two puts are identities on `st2`
  have hputR2 : put_secret st2 projectId kR data.refresh_token nt = st2 :=
    put_secret_of_pinned st2 projectId kR data.refresh_token nt hpinR2
  have hputA2 : put_secret st2 projectId kA data.access_token nt = st2 :=
    put_secret_of_pinned st2 projectId kA data.access_token nt hpinA2
  show store_user_auth_data_async serUser serNote projectId data user_id st2 = st2
  show put_secret (put_secret (store_user_file st2 serUser data) projectId kR
      data.refresh_token nt) projectId kA data.access_token nt = st2
  rw [hfile2, hputR2, hputA2]

/-- C9, witness: persisting a concrete bundle twice into an initially empty
well-formed store equals persisting it once. -/
theorem C9_witness :
    store_user_auth_data_async (fun _ => some "J") (fun _ => some "N") 0
      ⟨"at", "Bearer", "s", 3600, "rt", some 5⟩ "u"
      (store_user_auth_data_async (fun _ => some "J") (fun _ => some "N") 0
        ⟨"at", "Bearer", "s", 3600, "rt", some 5⟩ "u" ⟨[], 0, none⟩)
      = store_user_auth_data_async (fun _ => some "J") (fun _ => some "N") 0
        ⟨"at", "Bearer", "s", 3600, "rt", some 5⟩ "u" ⟨[], 0, none⟩ := by
  exact C9_persist_idempotent _ _ 0 _ "u" ⟨[], 0, none⟩
    ⟨List.nodup_nil, fun s hs => absurd hs (List.not_mem_nil s)⟩

end MusicTracker
